import Mathlib

/-!
Verification of the PharmaSee medicine-scanner core logic: a shallow
embedding of the catalog search (`medicine_database.py`), the LLM response
parsing and error handling (`llm_analyzer.py`), and the scan pipeline and
scheduler state (`medicine_scanner.py`).

External leaves (the fuzzy scorer `fuzz.ratio`, the OCR engine, the LLM
call) are modelled as function parameters; everything else is translated
from the Python source. Python string primitives (`str.strip`,
`str.lower`, `str.split`, `in`, `len`) are modelled by executable
functions over the character list of a `String`.
-/

namespace PharmaSee

/-- Python `str.lower()`: lowercase every character. -/
def pyLower (s : String) : String := String.mk (s.data.map Char.toLower)

/-- Python `str.strip()`: drop leading and trailing whitespace. -/
def pyStrip (s : String) : String :=
  String.mk
    (((s.data.dropWhile Char.isWhitespace).reverse.dropWhile
        Char.isWhitespace).reverse)

/-- Helper for `pySplit`: accumulate the current segment (reversed) while
scanning, emitting a segment at each separator. -/
def pySplitAux (c : Char) : List Char → List Char → List (List Char)
  | [], acc => [acc.reverse]
  | x :: xs, acc =>
      if x = c then acc.reverse :: pySplitAux c xs []
      else pySplitAux c xs (x :: acc)

/-- Python `str.split(c)` for a one-character separator: splits on every
occurrence, keeping empty segments. -/
def pySplit (c : Char) (s : String) : List String :=
  (pySplitAux c s.data []).map String.mk

/-- Classification record produced by the LLM analyzer
(`_parse_llm_response` in `llm_analyzer.py` returns a dict with exactly
these four keys). -/
structure MedicineInfo where
  type : String
  use : String
  drug_class : String
  form : String
deriving DecidableEq, Repr

/-- The all-`"Unknown"` default record `_parse_llm_response` starts from. -/
def unknownInfo : MedicineInfo :=
  { type := ("Unknown" : String), use := ("Unknown" : String)
    drug_class := ("Unknown" : String), form := ("Unknown" : String) }

/-- The per-line step of `MedicineLLMAnalyzer._parse_llm_response`:
strip the line; if it contains a colon, split at the first colon
(Python `line.split(':', 1)`), strip-and-lowercase the key, strip the
value, and update the matching field; otherwise leave the record
unchanged. -/
def parse_line_step (info : MedicineInfo) (rawLine : String) : MedicineInfo :=
  let line := pyStrip rawLine
  if line.data.contains ':' then
    let key := pyLower (pyStrip (String.mk (line.data.takeWhile (fun c => c != ':'))))
    let value := pyStrip (String.mk ((line.data.dropWhile (fun c => c != ':')).drop 1))
    if key = ("type" : String) then { info with type := value }
    else if key = ("use" : String) then { info with use := value }
    else if key = ("class" : String) then { info with drug_class := value }
    else if key = ("form" : String) then { info with form := value }
    else info
  else info

/-- Model of `MedicineLLMAnalyzer._parse_llm_response`: start from all-`"Unknown"`
defaults, split the stripped response on newlines, and fold
`parse_line_step` over the lines. -/
def parse_llm_response (response_text : String) : MedicineInfo :=
  (pySplit '\n' (pyStrip response_text)).foldl parse_line_step unknownInfo

/-- Model of `MedicineLLMAnalyzer.analyze_medicine`. The external LLM call together
with response extraction (`response.choices[0].message.content`) is
modelled as `remote : String → Except String String`; on success the code
strips the content and parses it, on any failure it returns the degraded
record with `type = "Error"` and the message embedded in `use`. -/
def analyze_medicine (remote : String → Except String String)
    (medicine_name : String) : MedicineInfo :=
  match remote medicine_name with
  | Except.ok content => parse_llm_response (pyStrip content)
  | Except.error e =>
      { type := ("Error" : String)
        use := ("Failed to analyze: " : String) ++ e
        drug_class := ("Unknown" : String)
        form := ("Unknown" : String) }

/-- Model of `MedicineDatabase.search_medicine`, with the external fuzzy scorer
`fuzz.ratio` abstracted as `score`. Empty catalog returns `none`; an exact
case-insensitive pass short-circuits; otherwise a fuzzy pass tracks the
best strictly-improving score and returns the best match iff the best
score reaches the threshold. -/
def search_medicine (score : String → String → Nat) (medicines : List String)
    (query : String) (threshold : Nat) : Option String :=
  if medicines = [] then none
  else
    let query_lower := pyStrip (pyLower query)
    match medicines.find? (fun m => pyLower m == query_lower) with
    | some m => some m
    | none =>
        let best := medicines.foldl
          (fun (acc : Option String × Nat) m =>
            let s := score query_lower (pyLower m)
            if s > acc.2 then (some m, s) else acc)
          (none, 0)
        if best.2 ≥ threshold then best.1 else none

/-- Model of `MedicineDatabase.add_medicine`: strip the name; append only when it
is non-empty and not already an exact member. -/
def add_medicine (medicines : List String) (medicine_name : String) :
    List String :=
  let name := pyStrip medicine_name
  if name ≠ ("" : String) ∧ name ∉ medicines then medicines ++ [name]
  else medicines

/-- Ordering used by `get_best_matches`: descending similarity score
(`matches.sort(key=lambda x: x[1], reverse=True)`). -/
def scoreGe (p q : String × Nat) : Prop := q.2 ≤ p.2

instance : DecidableRel scoreGe := fun p q => Nat.decLe q.2 p.2

instance : IsTotal (String × Nat) scoreGe :=
  ⟨fun p q => (Nat.le_total q.2 p.2).elim Or.inl Or.inr⟩

instance : IsTrans (String × Nat) scoreGe :=
  ⟨fun _ _ _ h h2 => Nat.le_trans h2 h⟩

/-- Model of `MedicineDatabase.get_best_matches`: score every catalog entry against
the normalized query, stable-sort descending by score (Python `list.sort`
is stable), and keep the first `top_n`. -/
def get_best_matches (score : String → String → Nat) (medicines : List String)
    (query : String) (top_n : Nat) : List (String × Nat) :=
  if medicines = [] then []
  else
    let query_lower := pyStrip (pyLower query)
    let scored := medicines.map (fun m => (m, score query_lower (pyLower m)))
    (scored.insertionSort scoreGe).take top_n

/-- Python truthiness of an `Optional[str]`: `None` and the empty string
are falsy, every other string is truthy (the guard `if matched_medicine:`
in `_detect_medicine_from_frame`). -/
def pyTruthy (s : Option String) : Bool :=
  match s with
  | none => false
  | some t => t != ("" : String)

/-- Model of `MedicineScanner._detect_medicine_from_frame`, inner loop: iterate the
OCR observations in order; strip the text, query the catalog with the
default threshold 80; a truthy (non-`None`, non-empty) catalog match is
returned at once (the code guards with Python truthiness,
`if matched_medicine:`, so an empty-string match falls through);
otherwise a high-confidence long-enough text is returned as-is; else
continue with the next observation. -/
def detect_loop (score : String → String → Nat) (medicines : List String) :
    List (String × ℚ) → Option String
  | [] => none
  | (text, confidence) :: rest =>
      let text_cleaned := pyStrip text
      let matched_medicine := search_medicine score medicines text_cleaned 80
      if pyTruthy matched_medicine then matched_medicine
      else if confidence > (0.7 : ℚ) ∧ text_cleaned.length > 3 then
        some text_cleaned
      else detect_loop score medicines rest

/-- Model of `MedicineScanner._detect_medicine_from_frame`: the OCR engine is
abstracted as the observation list `text_results`; an empty result list
returns `none` immediately, otherwise the acceptance loop runs. -/
def detect_medicine_from_frame (score : String → String → Nat)
    (medicines : List String) (text_results : List (String × ℚ)) :
    Option String :=
  if text_results = [] then none
  else detect_loop score medicines text_results

/-- Per-observation acceptance policy, amended to match the code's
truthiness guard: a non-empty catalog match is accepted with the matched
name; otherwise (no match, or an empty-string match, which Python
truthiness skips) the observation is accepted with its own stripped text
when confidence exceeds 0.7 and the stripped text is longer than 3
characters; otherwise it is rejected. -/
def acceptObservation (score : String → String → Nat)
    (medicines : List String) (obs : String × ℚ) : Option String :=
  let cleaned := pyStrip obs.1
  let matched := search_medicine score medicines cleaned 80
  if pyTruthy matched then matched
  else if obs.2 > (0.7 : ℚ) ∧ cleaned.length > 3 then some cleaned
  else none

/-- Mutable state of `MedicineScanner` relevant to scheduling: the last
scan time, the configured scan interval, and the cached detection result
(`last_detected_medicine`, `last_analysis`). Times are modelled as
rationals. -/
structure ScannerState where
  last_scan_time : ℚ
  scan_interval : ℚ
  last_detected_medicine : Option String
  last_analysis : Option MedicineInfo
deriving DecidableEq

/-- Model of `MedicineScanner._should_scan` with the clock passed explicitly:
true when at least `scan_interval` has elapsed since `last_scan_time`. -/
def should_scan (s : ScannerState) (now : ℚ) : Bool :=
  decide (now - s.last_scan_time ≥ s.scan_interval)

/-- Model of the `'R'` key handler in `MedicineScanner.run`: clears
`last_detected_medicine` and `last_analysis` (and touches nothing else). -/
def reset_detection (s : ScannerState) : ScannerState :=
  { s with last_detected_medicine := none, last_analysis := none }

/-- Model of `MedicineScanner._perform_scan`: sets `last_scan_time` to the current
time first, runs detection on the frame's observations, and on a detected
name runs the LLM analysis and stores both; on no detection the cached
fields are untouched. The returned flag records whether the analyzer
(`_analyze_medicine_with_llm`) was invoked. -/
def perform_scan (score : String → String → Nat) (medicines : List String)
    (analyze : String → MedicineInfo) (now : ℚ)
    (text_results : List (String × ℚ)) (s : ScannerState) :
    ScannerState × Bool :=
  let s1 := { s with last_scan_time := now }
  match detect_medicine_from_frame score medicines text_results with
  | some medicine_name =>
      ({ s1 with last_detected_medicine := some medicine_name
                 last_analysis := some (analyze medicine_name) }, true)
  | none => (s1, false)

end PharmaSee

namespace PharmaSee

/-- A colon-free line leaves the record unchanged, so a fold over
colon-free lines is the identity. -/
lemma foldl_parse_line_step_of_no_colon (lines : List String)
    (h : ∀ line ∈ lines, ':' ∉ (pyStrip line).data) :
    ∀ info : MedicineInfo, lines.foldl parse_line_step info = info := by
  induction lines with
  | nil => intro info; rfl
  | cons line rest ih =>
      intro info
      have hline : ':' ∉ (pyStrip line).data :=
        h line (List.mem_cons_self line rest)
      have hstep : parse_line_step info line = info := by
        simp [parse_line_step, hline]
      rw [List.foldl_cons, hstep]
      exact ih (fun l hl => h l (List.mem_cons_of_mem line hl)) info

/-- C5: the classifier response parser is total, returns exactly the four
fields, splits lines at the first colon with case-insensitive keys,
ignores unrecognized lines, and defaults missing keys to `"Unknown"`. The
first conjunct is the spec's worked example; the second is the same
response without the `Form:` line; the third exercises whitespace
tolerance, key case-insensitivity and a prose line; the last states that
an input with no colon on any line parses to the all-`"Unknown"` record. -/
theorem parse_llm_response_contract :
    parse_llm_response ("Type: Analgesic\nUse: Pain relief\nClass: NSAID\nForm: Tablet")
      = { type := ("Analgesic" : String), use := ("Pain relief" : String)
          drug_class := ("NSAID" : String), form := ("Tablet" : String) }
    ∧ parse_llm_response ("Type: Analgesic\nUse: Pain relief\nClass: NSAID")
      = { type := ("Analgesic" : String), use := ("Pain relief" : String)
          drug_class := ("NSAID" : String), form := ("Unknown" : String) }
    ∧ parse_llm_response ("Use: Pain relief\n  tYpE :  Analgesic  \nsome extra prose\nFORM: Gel")
      = { type := ("Analgesic" : String), use := ("Pain relief" : String)
          drug_class := ("Unknown" : String), form := ("Gel" : String) }
    ∧ ∀ response_text : String,
        (∀ line ∈ pySplit '\n' (pyStrip response_text),
          ':' ∉ (pyStrip line).data) →
        parse_llm_response response_text = unknownInfo := by
  refine ⟨by decide, by decide, by decide, ?_⟩
  intro response_text h
  exact foldl_parse_line_step_of_no_colon _ h unknownInfo

/-- Witness for C5: a response with no colon anywhere parses to the
all-`"Unknown"` record. -/
theorem parse_llm_response_contract_witness :
    parse_llm_response ("this response has no labeled lines") = unknownInfo :=
  parse_llm_response_contract.2.2.2 ("this response has no labeled lines")
    (by decide)

/-- C6: the analyzer never raises (it is a total function into
`MedicineInfo`); on any failure of the external call it returns the
degraded record with `type = "Error"` and the error message embedded in
`use`, the other fields `"Unknown"`; and its result depends only on the
single value of the external call at the queried name, so the call is
consulted (at most) once per invocation. -/
theorem analyze_medicine_error_contract :
    ∀ (remote : String → Except String String) (medicine_name e : String),
      (remote medicine_name = Except.error e →
        analyze_medicine remote medicine_name =
          { type := ("Error" : String)
            use := ("Failed to analyze: " : String) ++ e
            drug_class := ("Unknown" : String)
            form := ("Unknown" : String) })
      ∧ ∀ remote2 : String → Except String String,
          remote medicine_name = remote2 medicine_name →
          analyze_medicine remote medicine_name
            = analyze_medicine remote2 medicine_name := by
  intro remote medicine_name e
  constructor
  · intro h
    simp [analyze_medicine, h]
  · intro remote2 h
    simp [analyze_medicine, h]

/-- Witness for C6: a remote call that always fails yields the degraded
record with the message embedded. -/
theorem analyze_medicine_error_contract_witness :
    analyze_medicine (fun _ => Except.error ("boom")) ("Aspirin")
      = { type := ("Error" : String)
          use := ("Failed to analyze: " : String) ++ ("boom" : String)
          drug_class := ("Unknown" : String)
          form := ("Unknown" : String) } :=
  (analyze_medicine_error_contract (fun _ => Except.error ("boom"))
    ("Aspirin") ("boom")).1 rfl

/-- C10: `add_medicine` appends the stripped name exactly when it is
non-empty and not already an exact member, otherwise leaves the catalog
unchanged; in every case the old catalog is an unchanged prefix of the
result, the catalog grows by at most one entry, and duplicate-freeness is
preserved. -/
theorem add_medicine_append_only :
    ∀ (medicines : List String) (medicine_name : String),
      (pyStrip medicine_name ≠ ("" : String) ∧ pyStrip medicine_name ∉ medicines →
        add_medicine medicines medicine_name
          = medicines ++ [pyStrip medicine_name])
      ∧ ((pyStrip medicine_name = ("" : String) ∨ pyStrip medicine_name ∈ medicines) →
        add_medicine medicines medicine_name = medicines)
      ∧ (add_medicine medicines medicine_name).take medicines.length = medicines
      ∧ (add_medicine medicines medicine_name).length ≤ medicines.length + 1
      ∧ (medicines.Nodup → (add_medicine medicines medicine_name).Nodup) := by
  intro medicines medicine_name
  by_cases h : pyStrip medicine_name ≠ ("" : String) ∧ pyStrip medicine_name ∉ medicines
  · have hadd : add_medicine medicines medicine_name
        = medicines ++ [pyStrip medicine_name] := by
      simp only [add_medicine, if_pos h]
    refine ⟨fun _ => hadd, ?_, ?_, ?_, ?_⟩
    · intro hcon
      rcases hcon with hc | hc
      · exact absurd hc h.1
      · exact absurd hc h.2
    · rw [hadd]; exact List.take_left medicines [pyStrip medicine_name]
    · rw [hadd]; simp
    · intro hnd
      rw [hadd]
      simp [List.nodup_append, hnd, h.2]
  · have hadd : add_medicine medicines medicine_name = medicines := by
      simp only [add_medicine, if_neg h]
    refine ⟨fun hc => absurd hc h, fun _ => hadd, ?_, ?_, ?_⟩
    · rw [hadd]; simp
    · rw [hadd]; exact Nat.le_succ _
    · intro hnd; rw [hadd]; exact hnd

/-- Witness for C10: adding a new stripped name appends it; adding an
existing one is a no-op. -/
theorem add_medicine_append_only_witness :
    add_medicine [("Aspirin" : String)] ("  Ibuprofen ")
      = [("Aspirin" : String)] ++ [pyStrip ("  Ibuprofen ")]
    ∧ add_medicine [("Aspirin" : String)] ("Aspirin") = [("Aspirin" : String)] :=
  ⟨(add_medicine_append_only [("Aspirin" : String)] ("  Ibuprofen ")).1 (by decide),
   (add_medicine_append_only [("Aspirin" : String)] ("Aspirin")).2.1 (by decide)⟩

/-- Counterexample to C3 as stated: with the catalog
`["ASPIRIN", "aspirin"]`, the entry `e = "aspirin"` and the query
`"aspirin"` (equal to `e` up to casing after trimming), the search does
not return `e`: the earlier case-insensitive duplicate `"ASPIRIN"` wins. -/
theorem search_medicine_exact_cex :
    ("aspirin" : String) ∈ [("ASPIRIN" : String), ("aspirin" : String)]
    ∧ pyStrip (pyLower ("aspirin")) = pyLower ("aspirin")
    ∧ search_medicine (fun _ _ => 0)
        [("ASPIRIN" : String), ("aspirin" : String)] ("aspirin") 80
        ≠ some ("aspirin") := by
  refine ⟨by decide, by decide, by decide⟩

/-- C3 (amended): for every non-empty catalog, every entry `e` and every
query equal to `e` up to letter casing after trimming, the search returns
the first case-insensitively equal catalog entry — an entry equal to `e`
up to casing, but not necessarily `e` itself when an earlier
case-insensitive duplicate exists — via the exact pass, for every fuzzy
threshold and every scorer (so the fuzzy pass is never consulted). -/
theorem search_medicine_exact_pass :
    ∀ (score : String → String → Nat) (medicines : List String)
      (query : String) (threshold : Nat) (e : String),
      e ∈ medicines →
      pyStrip (pyLower query) = pyLower e →
      ∃ r, medicines.find? (fun m => pyLower m == pyStrip (pyLower query)) = some r
        ∧ search_medicine score medicines query threshold = some r
        ∧ pyLower r = pyLower e := by
  intro score medicines query threshold e he hq
  cases hf : medicines.find? (fun m => pyLower m == pyStrip (pyLower query)) with
  | none =>
      exfalso
      have := List.find?_eq_none.mp hf e he
      simp [hq] at this
  | some r =>
      have hr : pyLower r = pyStrip (pyLower query) := by
        have := List.find?_some hf
        simpa using this
      have hne : medicines ≠ [] := List.ne_nil_of_mem he
      refine ⟨r, rfl, ?_, hr.trans hq⟩
      simp only [search_medicine, if_neg hne, hf]

/-- Witness for C3 (amended): a concrete catalog and a casing-variant
query resolve through the exact pass even with an absurd threshold. -/
theorem search_medicine_exact_pass_witness :
    ∃ r, [("Aspirin" : String), ("Ibuprofen" : String)].find?
          (fun m => pyLower m == pyStrip (pyLower (" ASPIRIN "))) = some r
      ∧ search_medicine (fun _ _ => 0)
          [("Aspirin" : String), ("Ibuprofen" : String)] (" ASPIRIN ") 999 = some r
      ∧ pyLower r = pyLower ("Aspirin") :=
  search_medicine_exact_pass (fun _ _ => 0)
    [("Aspirin" : String), ("Ibuprofen" : String)] (" ASPIRIN ") 999
    ("Aspirin") (by decide) (by decide)

/-- C7: when the extractor yields no observations, detection returns
`none` immediately, and a scan on an empty observation list never invokes
the classifier (the invocation flag of `perform_scan` is false). -/
theorem resolve_empty_observations :
    ∀ (score : String → String → Nat) (medicines : List String)
      (analyze : String → MedicineInfo) (now : ℚ) (s : ScannerState),
      detect_medicine_from_frame score medicines [] = none
      ∧ (perform_scan score medicines analyze now [] s).2 = false := by
  intro score medicines analyze now s
  exact ⟨rfl, rfl⟩

/-- C8: every scan attempt sets `last_scan_time` to the attempt's time,
whether or not a medicine is detected; and an attempt on which detection
returns `none` leaves the cached result (`last_detected_medicine`,
`last_analysis`) and the configured interval unchanged. -/
theorem perform_scan_failure_keeps_cache :
    ∀ (score : String → String → Nat) (medicines : List String)
      (analyze : String → MedicineInfo) (now : ℚ)
      (text_results : List (String × ℚ)) (s : ScannerState),
      (perform_scan score medicines analyze now text_results s).1.last_scan_time = now
      ∧ (perform_scan score medicines analyze now text_results s).1.scan_interval
          = s.scan_interval
      ∧ (detect_medicine_from_frame score medicines text_results = none →
          (perform_scan score medicines analyze now text_results s).1.last_detected_medicine
            = s.last_detected_medicine
          ∧ (perform_scan score medicines analyze now text_results s).1.last_analysis
            = s.last_analysis) := by
  intro score medicines analyze now text_results s
  cases hd : detect_medicine_from_frame score medicines text_results with
  | none =>
      have hp : perform_scan score medicines analyze now text_results s
          = ({ s with last_scan_time := now }, false) := by
        simp [perform_scan, hd]
      refine ⟨?_, ?_, fun _ => ⟨?_, ?_⟩⟩ <;> rw [hp]
  | some name =>
      refine ⟨?_, ?_, fun hcon => ?_⟩
      · simp [perform_scan, hd]
      · simp [perform_scan, hd]
      · exact Option.noConfusion hcon

/-- Witness for C8: a failed scan (no observations) on a state holding a
cached detection keeps the cached fields while the scan time moves to
`now`. -/
theorem perform_scan_failure_keeps_cache_witness :
    (perform_scan (fun _ _ => 0) [] (fun _ => unknownInfo) (9 : ℚ) []
        { last_scan_time := (5 : ℚ), scan_interval := (2 : ℚ)
          last_detected_medicine := some ("Aspirin" : String)
          last_analysis := some unknownInfo }).1.last_detected_medicine
      = some ("Aspirin" : String)
    ∧ (perform_scan (fun _ _ => 0) [] (fun _ => unknownInfo) (9 : ℚ) []
        { last_scan_time := (5 : ℚ), scan_interval := (2 : ℚ)
          last_detected_medicine := some ("Aspirin" : String)
          last_analysis := some unknownInfo }).1.last_analysis
      = some unknownInfo :=
  (perform_scan_failure_keeps_cache (fun _ _ => 0) [] (fun _ => unknownInfo)
    (9 : ℚ) []
    { last_scan_time := (5 : ℚ), scan_interval := (2 : ℚ)
      last_detected_medicine := some ("Aspirin" : String)
      last_analysis := some unknownInfo }).2.2 rfl

/-- Counterexample to C2 as stated: a reset does not touch
`last_scan_time`, so immediately after a reset at time 101 — one time
unit after a scan at time 100 with interval 5 — the auto-eligibility
check is still false, not true. -/
theorem reset_detection_cex :
    (reset_detection
        { last_scan_time := (100 : ℚ), scan_interval := (5 : ℚ)
          last_detected_medicine := some ("Aspirin" : String)
          last_analysis := none }).last_detected_medicine = none
    ∧ (reset_detection
        { last_scan_time := (100 : ℚ), scan_interval := (5 : ℚ)
          last_detected_medicine := some ("Aspirin" : String)
          last_analysis := none }).last_scan_time = (100 : ℚ)
    ∧ should_scan
        (reset_detection
          { last_scan_time := (100 : ℚ), scan_interval := (5 : ℚ)
            last_detected_medicine := some ("Aspirin" : String)
            last_analysis := none }) (101 : ℚ) = false := by
  refine ⟨rfl, rfl, ?_⟩
  simp only [should_scan, reset_detection, decide_eq_false_iff_not, not_le]
  norm_num

/-- C2 (amended): after a reset the cached result (detected medicine and
analysis) is absent, but `last_scan_time` and the interval are unchanged,
so the auto-eligibility check behaves exactly as before the reset — an
immediate automatic scan is permitted only if it already was. -/
theorem reset_detection_spec :
    ∀ (s : ScannerState) (now : ℚ),
      (reset_detection s).last_detected_medicine = none
      ∧ (reset_detection s).last_analysis = none
      ∧ (reset_detection s).last_scan_time = s.last_scan_time
      ∧ (reset_detection s).scan_interval = s.scan_interval
      ∧ should_scan (reset_detection s) now = should_scan s now := by
  intro s now
  exact ⟨rfl, rfl, rfl, rfl, rfl⟩

/-- The detection loop is exactly "first accepted observation wins". -/
lemma detect_loop_eq_findSome? (score : String → String → Nat)
    (medicines : List String) :
    ∀ text_results : List (String × ℚ),
      detect_loop score medicines text_results
        = text_results.findSome? (acceptObservation score medicines) := by
  intro text_results
  induction text_results with
  | nil => rfl
  | cons obs rest ih =>
      obtain ⟨text, confidence⟩ := obs
      rw [List.findSome?_cons]
      cases hs : search_medicine score medicines (pyStrip text) 80 with
      | some m =>
          by_cases hm : m = ("" : String)
          · by_cases hc : confidence > (0.7 : ℚ) ∧ (pyStrip text).length > 3 <;>
              simp [detect_loop, acceptObservation, pyTruthy, hs, hm, hc, ih]
          · simp [detect_loop, acceptObservation, pyTruthy, hs, hm]
      | none =>
          by_cases hc : confidence > (0.7 : ℚ) ∧ (pyStrip text).length > 3 <;>
            simp [detect_loop, acceptObservation, pyTruthy, hs, hc, ih]

/-- Counterexample to C1 as stated: with the catalog `[""]` (a
whitespace-only CSV name survives loading as the empty string) and the
single observation `("  ", 0.9)`, the stripped text `""` does yield a
catalog match (the exact pass returns `""`), so the claim demands that
the matched catalog name be returned; but the code's truthiness guard
`if matched_medicine:` skips the empty-string match, the length test
fails, and the pipeline returns `none`. -/
theorem detect_first_acceptance_cex :
    search_medicine (fun _ _ => 0) [("" : String)] (pyStrip ("  " : String)) 80
      = some ("" : String)
    ∧ detect_medicine_from_frame (fun _ _ => 0) [("" : String)]
        [(("  " : String), (0.9 : ℚ))] = none := by
  have hs : search_medicine (fun _ _ => 0) [("" : String)]
      (pyStrip ("  " : String)) 80 = some ("" : String) := by decide
  refine ⟨hs, ?_⟩
  have hlen : ¬ ((pyStrip ("  " : String)).length > 3) := by decide
  have ht : pyTruthy (some ("" : String)) = false := by decide
  rw [detect_medicine_from_frame, if_neg (by simp)]
  simp only [detect_loop, hs, ht]
  rw [if_neg (by simp), if_neg (fun hc => hlen hc.2)]

/-- C1 (amended): the resolution pipeline returns exactly the first
observation, in extractor order, accepted by the per-observation policy —
the catalog match when a non-empty one exists, else (no match, or an
empty-string match skipped by the code's truthiness guard) the stripped
text itself when confidence exceeds 0.7 and the stripped text is longer
than 3 characters — and returns `none` when no observation is accepted;
later observations are never consulted (`findSome?` short-circuits at
the first `some`). -/
theorem detect_first_acceptance :
    ∀ (score : String → String → Nat) (medicines : List String)
      (text_results : List (String × ℚ)),
      detect_medicine_from_frame score medicines text_results
        = text_results.findSome? (acceptObservation score medicines) := by
  intro score medicines text_results
  cases text_results with
  | nil => rfl
  | cons obs rest =>
      rw [detect_medicine_from_frame, if_neg (by simp)]
      exact detect_loop_eq_findSome? score medicines (obs :: rest)

/-- Running maximum of the fuzzy scores, as accumulated by the fuzzy pass
of `search_medicine` (initial accumulator `b`, scorer `f`). -/
def run_max (f : String → Nat) (b : Nat) (ms : List String) : Nat :=
  ms.foldl (fun a m => max a (f m)) b

/-- The maximum fuzzy score of the catalog against the normalized query
(the spec's "track the maximum"). -/
def max_score (score : String → String → Nat) (medicines : List String)
    (query : String) : Nat :=
  run_max (fun m => score (pyStrip (pyLower query)) (pyLower m)) 0 medicines

/-- The first catalog entry achieving the maximum fuzzy score (the spec's
tie-break: first entry achieving the maximum wins). -/
def first_best (score : String → String → Nat) (medicines : List String)
    (query : String) : Option String :=
  medicines.find? (fun m =>
    score (pyStrip (pyLower query)) (pyLower m) == max_score score medicines query)

lemma le_run_max (f : String → Nat) :
    ∀ (ms : List String) (b : Nat), b ≤ run_max f b ms := by
  intro ms
  induction ms with
  | nil => intro b; exact Nat.le_refl b
  | cons m rest ih =>
      intro b
      exact Nat.le_trans (Nat.le_max_left b (f m)) (ih (max b (f m)))

lemma run_max_bound (f : String → Nat) :
    ∀ (ms : List String) (b : Nat), ∀ m ∈ ms, f m ≤ run_max f b ms := by
  intro ms
  induction ms with
  | nil => intro b m hm; exact absurd hm (List.not_mem_nil m)
  | cons x rest ih =>
      intro b m hm
      rcases List.mem_cons.mp hm with h | h
      · subst h
        exact Nat.le_trans (Nat.le_max_right b (f m)) (le_run_max f rest _)
      · exact ih _ m h

lemma run_max_attained (f : String → Nat) :
    ∀ (ms : List String) (b : Nat), b < run_max f b ms →
      ∃ m ∈ ms, f m = run_max f b ms := by
  intro ms
  induction ms with
  | nil => intro b hb; exact absurd hb (Nat.lt_irrefl b)
  | cons x rest ih =>
      intro b hb
      by_cases hx : max b (f x) < run_max f (max b (f x)) rest
      · obtain ⟨m, hm, hfm⟩ := ih (max b (f x)) hx
        exact ⟨m, List.mem_cons_of_mem x hm, hfm⟩
      · have heq : run_max f b (x :: rest) = max b (f x) :=
          Nat.le_antisymm (Nat.le_of_not_lt hx) (le_run_max f rest _)
        have hfx : max b (f x) = f x := by
          rcases Nat.le_total (f x) b with h | h
          · exfalso
            rw [Nat.max_eq_left h] at heq
            rw [heq] at hb
            exact Nat.lt_irrefl b hb
          · exact Nat.max_eq_right h
        exact ⟨x, List.mem_cons_self x rest, by rw [heq, hfx]⟩

/-- Characterization of the fuzzy pass's fold: the final best score is
the running maximum, and the final best match is the first entry whose
score equals that maximum when some entry strictly beat the initial
accumulator, else the initial match. -/
lemma best_fold_eq (f : String → Nat) :
    ∀ (ms : List String) (o : Option String) (b : Nat),
      ms.foldl
          (fun (acc : Option String × Nat) m =>
            if f m > acc.2 then (some m, f m) else acc) (o, b)
        = (if b < run_max f b ms
            then ms.find? (fun m => f m == run_max f b ms)
            else o,
           run_max f b ms) := by
  intro ms
  induction ms with
  | nil =>
      intro o b
      simp [run_max]
  | cons x rest ih =>
      intro o b
      have hcons : run_max f b (x :: rest) = run_max f (max b (f x)) rest := rfl
      rw [List.foldl_cons]
      by_cases h1 : f x > b
      · have hmaxx : max b (f x) = f x := Nat.max_eq_right (Nat.le_of_lt h1)
        have hstep : (if f x > (o, b).2 then (some x, f x) else (o, b))
            = (some x, f x) := if_pos h1
        rw [hstep, ih (some x) (f x)]
        have hM : run_max f b (x :: rest) = run_max f (f x) rest := by
          rw [hcons, hmaxx]
        have hfxM : f x ≤ run_max f b (x :: rest) := by
          rw [hM]; exact le_run_max f rest (f x)
        have hbM : b < run_max f b (x :: rest) := Nat.lt_of_lt_of_le h1 hfxM
        rw [if_pos hbM, ← hM]
        by_cases h2 : f x = run_max f b (x :: rest)
        · have : (f x < run_max f b (x :: rest)) = False := by
            simp [h2]
          rw [hM] at h2
          simp only [hM, ← h2, Nat.lt_irrefl, if_false]
          rw [List.find?_cons_of_pos rest (by simp)]
        · have hlt : f x < run_max f b (x :: rest) := Nat.lt_of_le_of_ne hfxM h2
          rw [hM] at hlt h2 ⊢
          rw [if_pos hlt, List.find?_cons_of_neg rest (by simp [h2])]
      · have hle : f x ≤ b := Nat.le_of_not_lt h1
        have hmaxx : max b (f x) = b := Nat.max_eq_left hle
        have hstep : (if f x > (o, b).2 then (some x, f x) else (o, b))
            = (o, b) := if_neg h1
        rw [hstep, ih o b]
        have hM : run_max f b (x :: rest) = run_max f b rest := by
          rw [hcons, hmaxx]
        rw [← hM]
        by_cases hb : b < run_max f b (x :: rest)
        · have hxne : f x ≠ run_max f b (x :: rest) := by
            intro hcontr
            rw [← hcontr] at hb
            exact absurd hb (Nat.not_lt.mpr hle)
          rw [if_pos hb, if_pos hb,
            List.find?_cons_of_neg rest (by simp [hxne])]
        · rw [if_neg hb, if_neg hb]

/-- Counterexample to C4 as stated: with a one-entry catalog `["ab"]`,
query `"xy"` (no exact hit), an external scorer that returns 0, and
threshold 0, the maximum score 0 reaches the threshold and the first
maximum-achieving entry is `"ab"`, yet the code returns `none` rather
than that entry (its fuzzy loop only updates on strictly positive
improvement over the initial 0, so no best match is ever recorded). -/
theorem search_medicine_fuzzy_cex :
    [("ab" : String)].find? (fun m => pyLower m == pyStrip (pyLower ("xy"))) = none
    ∧ max_score (fun _ _ => 0) [("ab" : String)] ("xy") = 0
    ∧ (0 : Nat) ≤ max_score (fun _ _ => 0) [("ab" : String)] ("xy")
    ∧ first_best (fun _ _ => 0) [("ab" : String)] ("xy") = some ("ab" : String)
    ∧ search_medicine (fun _ _ => 0) [("ab" : String)] ("xy") 0 = none := by
  refine ⟨by decide, by decide, by decide, by decide, by decide⟩

/-- C4 (amended): on a non-empty catalog with no exact case-insensitive
hit, the search scores every entry, and returns the first entry achieving
the maximum score iff the maximum reaches the threshold AND the maximum
is positive; when the maximum is below the threshold, or in the
degenerate case where every score is 0 (so a threshold of 0 is formally
reached but nothing strictly improved on the initial accumulator), it
returns `none`. When the maximum is positive the first maximum-achieving
entry exists and realises the maximum, and every entry's score is bounded
by the maximum. -/
theorem search_medicine_fuzzy_max :
    ∀ (score : String → String → Nat) (medicines : List String)
      (query : String) (threshold : Nat),
      medicines ≠ [] →
      medicines.find? (fun m => pyLower m == pyStrip (pyLower query)) = none →
      (search_medicine score medicines query threshold
        = if threshold ≤ max_score score medicines query
              ∧ 0 < max_score score medicines query
            then first_best score medicines query
            else none)
      ∧ (0 < max_score score medicines query →
          ∃ r, first_best score medicines query = some r
            ∧ score (pyStrip (pyLower query)) (pyLower r)
                = max_score score medicines query)
      ∧ ∀ m ∈ medicines,
          score (pyStrip (pyLower query)) (pyLower m)
            ≤ max_score score medicines query := by
  intro score medicines query threshold hne hex
  refine ⟨?_, ?_, ?_⟩
  · have hfold := best_fold_eq
      (fun m => score (pyStrip (pyLower query)) (pyLower m)) medicines none 0
    have hms : run_max (fun m => score (pyStrip (pyLower query)) (pyLower m)) 0 medicines
        = max_score score medicines query := rfl
    simp only [search_medicine, if_neg hne, hex]
    rw [hfold]
    simp only [hms]
    by_cases ht : threshold ≤ max_score score medicines query <;>
      by_cases hpos : 0 < max_score score medicines query <;>
        simp [ht, hpos, first_best, ge_iff_le]
  · intro hpos
    obtain ⟨r, hr, hfr⟩ := run_max_attained
      (fun m => score (pyStrip (pyLower query)) (pyLower m)) medicines 0 hpos
    cases hfb : medicines.find? (fun m =>
        score (pyStrip (pyLower query)) (pyLower m)
          == max_score score medicines query) with
    | none =>
        exfalso
        have := List.find?_eq_none.mp hfb r hr
        exact this (by simp [max_score, hfr])
    | some r2 =>
        refine ⟨r2, hfb, ?_⟩
        have := List.find?_some hfb
        simpa using this
  · intro m hm
    exact run_max_bound
      (fun m => score (pyStrip (pyLower query)) (pyLower m)) medicines 0 m hm

/-- Witness for C4 (amended): a misspelled query with a scorer valuing
the sole entry at 85 and threshold 80 resolves to that entry. -/
theorem search_medicine_fuzzy_max_witness :
    search_medicine (fun _ _ => 85) [("Aspirin" : String)] ("Aspirn") 80
      = some ("Aspirin" : String) :=
  ((search_medicine_fuzzy_max (fun _ _ => 85) [("Aspirin" : String)]
    ("Aspirn") 80 (by decide) (by decide)).1).trans (by decide)

/-- Inserting a pair into a list keeps the equal-score fibre intact:
the inserted pair lands in front of its fibre (elements skipped by the
insertion have strictly larger scores), every other fibre is untouched. -/
lemma filter_orderedInsert (sc : Nat) (p : String × Nat) :
    ∀ l : List (String × Nat),
      (l.orderedInsert scoreGe p).filter (fun x => x.2 == sc)
        = if p.2 = sc then p :: l.filter (fun x => x.2 == sc)
          else l.filter (fun x => x.2 == sc) := by
  intro l
  induction l with
  | nil =>
      by_cases h : p.2 = sc <;> simp [List.orderedInsert, List.filter_cons, h]
  | cons b t ih =>
      by_cases hb : scoreGe p b
      · by_cases h : p.2 = sc <;>
          simp [List.orderedInsert, hb, List.filter_cons, h]
      · have hlt : p.2 < b.2 := Nat.lt_of_not_le (fun hc => hb hc)
        by_cases h : p.2 = sc
        · have hbne : b.2 ≠ sc := by omega
          simp [List.orderedInsert, hb, List.filter_cons, ih, h, hbne]
        · by_cases hbs : b.2 = sc <;>
            simp [List.orderedInsert, hb, List.filter_cons, ih, h, hbs]

/-- The stable sort used by `get_best_matches` permutes nothing inside an
equal-score fibre: filtering the sorted list at any fixed score gives the
fibre in original (catalog) order. -/
lemma filter_insertionSort (sc : Nat) :
    ∀ l : List (String × Nat),
      (l.insertionSort scoreGe).filter (fun x => x.2 == sc)
        = l.filter (fun x => x.2 == sc) := by
  intro l
  induction l with
  | nil => rfl
  | cons a t ih =>
      rw [List.insertionSort, filter_orderedInsert sc a, ih, List.filter_cons]
      by_cases h : a.2 = sc <;> simp [h]

/-- C9: for every catalog, query and bound, `get_best_matches` returns a
list sorted in descending score order (`scoreGe`), and for every score
value its equal-score entries form a sublist of the catalog-order scored
list — i.e. ties appear in catalog insertion order. -/
theorem get_best_matches_sorted_stable :
    ∀ (score : String → String → Nat) (medicines : List String)
      (query : String) (top_n : Nat),
      (get_best_matches score medicines query top_n).Pairwise scoreGe
      ∧ ∀ sc : Nat,
          ((get_best_matches score medicines query top_n).filter
              (fun x => x.2 == sc)).Sublist
            ((medicines.map
                (fun m => (m, score (pyStrip (pyLower query)) (pyLower m)))).filter
              (fun x => x.2 == sc)) := by
  intro score medicines query top_n
  by_cases hm : medicines = []
  · subst hm
    exact ⟨by simp [get_best_matches], fun sc => by simp [get_best_matches]⟩
  · have hgb : get_best_matches score medicines query top_n
        = ((medicines.map
            (fun m => (m, score (pyStrip (pyLower query)) (pyLower m)))).insertionSort
              scoreGe).take top_n := by
      simp only [get_best_matches, if_neg hm]
    constructor
    · rw [hgb]
      exact List.Pairwise.sublist (List.take_sublist _ _)
        (List.sorted_insertionSort scoreGe _)
    · intro sc
      rw [hgb]
      have h1 := List.Sublist.filter (fun x : String × Nat => x.2 == sc)
        (List.take_sublist top_n
          ((medicines.map
            (fun m => (m, score (pyStrip (pyLower query)) (pyLower m)))).insertionSort
              scoreGe))
      rw [filter_insertionSort sc] at h1
      exact h1

end PharmaSee

